import Mathlib

/-!
Shallow embedding of the `ALENode` game-state node adapter from `mcts.py`.

The Arcade Learning Environment (ALE) emulator and the MCTS engine are external
collaborators; the emulator is modelled as an abstract deterministic machine
(`Emulator`) together with a mutable interface object (`ALE`) whose state is
threaded explicitly through every operation.  Python-level behaviours the code
relies on (list indexing with negative indices and `IndexError`, subscripting a
non-list raising `TypeError`, missing attributes raising `AttributeError`) are
embedded by `pyIndex`, `PyValue.subscript` and the slot table of `ALENode`.
-/

/-- Python exceptions that the code under study can raise. -/
inductive PyError where
  | indexError
  | typeError
  | attributeError
deriving DecidableEq, Repr

/-- Python list subscription `xs[i]`: negative indices count from the end;
an index outside `[-len, len)` raises `IndexError`. -/
def pyIndex {α : Type} (xs : List α) (i : Int) : Except PyError α :=
  let j : Int := if i < 0 then i + xs.length else i
  if h : 0 ≤ j ∧ j < (xs.length : Int) then
    Except.ok (xs.get ⟨j.toNat, by omega⟩)
  else
    Except.error PyError.indexError

/-- The Python values that flow through the configuration parameters of
`mcts.py` (`action_weights`, `opp_actions`, `random_seed`): `None`, an int
(e.g. the random seed), or a list of numbers. -/
inductive PyValue where
  | none : PyValue
  | int : Int → PyValue
  | list : List Int → PyValue
deriving DecidableEq, Repr

/-- Python subscription `v[i]` on a `PyValue`: only lists are subscriptable;
subscripting `None` or an int raises `TypeError`. -/
def PyValue.subscript : PyValue → Int → Except PyError Int
  | PyValue.none, _ => Except.error PyError.typeError
  | PyValue.int _, _ => Except.error PyError.typeError
  | PyValue.list xs, i => pyIndex xs i

/-- The game dynamics fixed by a loaded ROM (external collaborator).
`step cur action` models one `interface.act(action)` call with the configured
frame skip folded in, returning the next machine state and the immediate
reward; `gameOver` and `screen` read the current machine state.  Machine
states are serialized snapshots, modelled as `Nat` codes. -/
structure Emulator where
  initState : Nat
  minimalActionSet : List Nat
  step : Nat → Int → Nat × Int
  gameOver : Nat → Bool
  screen : Nat → Nat

/-- One `ALEInterface` object: the loaded ROM dynamics plus the mutable parts
(current machine state, the `repeat_action_probability` stochasticity knob with
its pending random draws in percent, and the last action for sticky-action
repetition).  `cloneState`/`restoreState` capture and set only `cur`, as in
ALE where `cloneState` excludes the RNG. -/
structure ALE where
  emu : Emulator
  cur : Nat
  repeat_action_probability : Nat
  lastAction : Int
  rng : List Nat
  frame_skip : Nat
  random_seed : PyValue

/-- `interface.cloneState()` -/
def ALE.cloneState (a : ALE) : Nat := a.cur

/-- `interface.restoreState(s)` -/
def ALE.restoreState (a : ALE) (s : Nat) : ALE := { a with cur := s }

/-- `interface.game_over()` -/
def ALE.game_over (a : ALE) : Bool := a.emu.gameOver a.cur

/-- `interface.act(action)`: with probability `repeat_action_probability` the
previous action is repeated instead of `action` (sticky actions); with the
knob at `0` the draw is ignored and the given action is applied. -/
def ALE.act (a : ALE) (action : Int) : ALE × Int :=
  let draw := a.rng.headD 0
  let effective := if draw < a.repeat_action_probability then a.lastAction else action
  let res := a.emu.step a.cur effective
  ({ a with cur := res.1, lastAction := effective, rng := a.rng.tail }, res.2)

/-- `interface.saveScreenPNG(...)`: the frame buffer captured from the current
machine state. -/
def ALE.saveScreen (a : ALE) : Nat := a.emu.screen a.cur

/-- The class-level attributes that `ALENode.setup_interface` installs on the
class: the configured interface and the shared action/weight tables. -/
structure ALEClass where
  interface : ALE
  ale_action_set : List Nat
  action_space_size : Nat
  action_set : List Nat
  action_weights : PyValue
  opp_actions : PyValue

/-- A node instance: the seven `__slots__` of `ALENode`, assigned by
`__init__`.  `parent` is `none` for the root. -/
inductive ALENode : Type where
  | mk (state : Nat) (parent : Option ALENode) (score : Int) (action_id : Int)
      (is_terminal : Bool) (action_weights : PyValue) (opp_actions : PyValue) : ALENode

/-- slot `state` -/
def ALENode.state : ALENode → Nat
  | ALENode.mk s _ _ _ _ _ _ => s

/-- slot `parent` -/
def ALENode.parent : ALENode → Option ALENode
  | ALENode.mk _ p _ _ _ _ _ => p

/-- slot `_evaluation` (assigned from the `score` argument of `__init__`) -/
def ALENode._evaluation : ALENode → Int
  | ALENode.mk _ _ e _ _ _ _ => e

/-- slot `action_id` -/
def ALENode.action_id : ALENode → Int
  | ALENode.mk _ _ _ a _ _ _ => a

/-- slot `_is_terminal` -/
def ALENode._is_terminal : ALENode → Bool
  | ALENode.mk _ _ _ _ t _ _ => t

/-- slot `action_weights` -/
def ALENode.node_action_weights : ALENode → PyValue
  | ALENode.mk _ _ _ _ _ w _ => w

/-- slot `opp_actions` -/
def ALENode.node_opp_actions : ALENode → PyValue
  | ALENode.mk _ _ _ _ _ _ o => o

/-- `ALENode.setup_interface(rom_path, frame_skip, action_weights, opp_actions,
random_seed=None)`: builds the interface (setting `repeat_action_probability`
to 0 and `frame_skip`), loads the ROM, and installs the class attributes.  The
loaded ROM is the `rom : Emulator`; the seeded random stream of the fresh
interface is `rng`.  Note line 36: `action_set = [i for i in range(len(ale_action_set))]`
is the identity table `[0, 1, ..., n-1]`, not `ale_action_set` itself. -/
def ALENode.setup_interface (rom : Emulator) (rng : List Nat) (frame_skip : Nat)
    (action_weights opp_actions random_seed : PyValue) : ALEClass :=
  let interface : ALE :=
    { emu := rom
      cur := rom.initState
      repeat_action_probability := 0
      lastAction := 0
      rng := rng
      frame_skip := frame_skip
      random_seed := random_seed }
  let ale_action_set := rom.minimalActionSet
  { interface := interface
    ale_action_set := ale_action_set
    action_space_size := ale_action_set.length
    action_set := List.range ale_action_set.length
    action_weights := action_weights
    opp_actions := opp_actions }

/-- `ALENode.root()`: clone the current interface state, score 0, action 0
(start of game attributed to NOOP), terminal flag read from the interface. -/
def ALENode.root (cls : ALEClass) (ale : ALE) : ALENode :=
  ALENode.mk ale.cloneState Option.none 0 0 ale.game_over cls.action_weights cls.opp_actions

/-- `self.sync()`: restore the interface to this node's stored state. -/
def ALENode.sync (self : ALENode) (ale : ALE) : ALE :=
  ale.restoreState self.state

/-- `ALENode.from_parent(parent, action_id)`: sync to the parent, apply
`action_set[action_id]`, read `action_weights[action_id]` (unused), clone the
resulting state and build the child.  The interface object is threaded
explicitly; on a Python exception the mutated interface state persists and no
node is produced. -/
def ALENode.from_parent (cls : ALEClass) (ale : ALE) (parent : ALENode) (action_id : Int) :
    Except PyError ALENode × ALE :=
  let ale1 := parent.sync ale
  match pyIndex cls.action_set action_id with
  | Except.error e => (Except.error e, ale1)
  | Except.ok native =>
    let acted := ale1.act (native : Int)
    let ale2 := acted.1
    let ext_reward := acted.2
    match PyValue.subscript cls.action_weights action_id with
    | Except.error e => (Except.error e, ale2)
    | Except.ok _int_reward =>
      let inc_reward := ext_reward
      let new_state := ale2.cloneState
      let is_terminal := ale2.game_over
      (Except.ok (ALENode.mk new_state (Option.some parent) (parent._evaluation + inc_reward)
          action_id is_terminal cls.action_weights cls.opp_actions), ale2)

/-- `self.apply_action(action_id)` -/
def ALENode.apply_action (self : ALENode) (cls : ALEClass) (ale : ALE) (action_id : Int) :
    Except PyError ALENode × ALE :=
  ALENode.from_parent cls ale self action_id

/-- `self.get_legal_actions()` -/
def ALENode.get_legal_actions (cls : ALEClass) : List Nat :=
  cls.action_set

/-- `self.is_terminal()` -/
def ALENode.is_terminal (self : ALENode) : Bool := self._is_terminal

/-- `self.evaluation()` -/
def ALENode.evaluation (self : ALENode) : Int := self._evaluation

/-- `self.get_history()`: walk `parent` links while they exist (the root is
never appended), then reverse to root-to-node order. -/
def ALENode.get_history : ALENode → List ALENode
  | ALENode.mk _ Option.none _ _ _ _ _ => []
  | ALENode.mk s (Option.some p) e a t w o =>
      ALENode.get_history p ++ [ALENode.mk s (Option.some p) e a t w o]

/-- `self.__eq__(other)`: compares the stored `ALEState` snapshots (bit
identity of the serialized state). -/
def ALENode.eq (self other : ALENode) : Bool :=
  self.state == other.state

/-- The loop body of `make_video`: for each consecutive pair `(n, next)` of
the history, `n.sync()`, `interface.act(next.action_id)` (the raw stored id,
not translated through any table — line 97), then save the screen to the next
numbered frame file.  Returns the captured frames in order. -/
def videoLoop (ale : ALE) : List (ALENode × ALENode) → List Nat × ALE
  | [] => ([], ale)
  | (n, next) :: rest =>
      let ale1 := n.sync ale
      let acted := ale1.act next.action_id
      let frame := acted.1.saveScreen
      let res := videoLoop acted.1 rest
      (frame :: res.1, res.2)

/-- `self.make_video(video_path)`, restricted to the frame capture it performs
(the external `ffmpeg` encoding is out of scope): iterates `enumerate(history[:-1])`
and pairs each element with `history[i+1]`, i.e. runs `videoLoop` over the
consecutive pairs `zip history[:-1] history[1:]`. -/
def ALENode.make_video_frames (self : ALENode) (ale : ALE) : List Nat × ALE :=
  let history := self.get_history
  videoLoop ale (history.dropLast.zip history.tail)

/-- `__slots__` of `ALENode` (line 14).  Every instance attribute a node ever
has is one of these, each assigned exactly once in `__init__`. -/
def ALENode.slots : List String :=
  ["state", "parent", "_evaluation", "action_id", "_is_terminal", "action_weights", "opp_actions"]

/-- `self.__hash__()`: `return hash(self.ram.tobytes())`.  The attribute
lookup `self.ram` succeeds only if `"ram"` is an assigned slot of the
instance; otherwise Python raises `AttributeError`.  The `then` branch is
unreachable (its value is irrelevant) because `"ram"` is not in `__slots__`. -/
def ALENode.hashImpl (self : ALENode) : Except PyError Nat :=
  if ALENode.slots.contains "ram" then
    Except.ok self.state
  else
    Except.error PyError.attributeError

/-- The fields of `args` that reach `ALENode.setup_interface` from
`mcts_run` (line 148). -/
structure Args where
  frame_skip : Nat
  random_seed : Int
  action_weights : PyValue
  opp_actions : PyValue

/-- The call `ALENode.setup_interface(args.rom_path, args.frame_skip,
args.random_seed, args.action_weights, args.opp_actions)` on line 148 of
`mcts_run`, matched positionally against the signature
`setup_interface(cls, rom_path, frame_skip, action_weights, opp_actions,
random_seed=None)`: the third positional `args.random_seed` lands in the
`action_weights` parameter, `args.action_weights` in `opp_actions`, and
`args.opp_actions` in `random_seed`. -/
def mcts_run_setup (rom : Emulator) (rng : List Nat) (args : Args) : ALEClass :=
  ALENode.setup_interface rom rng args.frame_skip
    (PyValue.int args.random_seed) args.action_weights args.opp_actions

/-- The nodes reachable by the program: the root built by `ALENode.root`, and
every child a successful `from_parent` produces from a reachable parent, with
the interface carrying the ROM dynamics `emu` and the stochasticity knob at 0
as `setup_interface` configures it. -/
inductive ReachableNode (cls : ALEClass) (emu : Emulator) : ALENode → Prop where
  | root : ∀ ale : ALE, ale.emu = emu → ReachableNode cls emu (ALENode.root cls ale)
  | child : ∀ (p : ALENode) (ale ale2 : ALE) (aid : Int) (c : ALENode),
      ReachableNode cls emu p → ale.emu = emu → ale.repeat_action_probability = 0 →
      ALENode.from_parent cls ale p aid = (Except.ok c, ale2) →
      ReachableNode cls emu c

/-- Independent recomputation of the sum of immediate rewards along the
root-to-node path: for each parent link, re-run the ROM dynamics from the
parent's stored snapshot on the translated action and add the reward. -/
def pathScore (cls : ALEClass) (emu : Emulator) : ALENode → Int
  | ALENode.mk _ Option.none _ _ _ _ _ => 0
  | ALENode.mk _ (Option.some p) _ aid _ _ _ =>
      pathScore cls emu p +
        (emu.step p.state (((pyIndex cls.action_set aid).toOption.getD 0 : Nat) : Int)).2

/-- Object-identity view of the node heap, for the frame property of
`from_parent`: nodes live in a store indexed by reference, `parent` is a
reference, and the interface is the shared mutable emulator object. -/
structure NodeObj where
  state : Nat
  parent : Option Nat
  score : Int
  action_id : Int
  is_terminal : Bool
  action_weights : PyValue
  opp_actions : PyValue
deriving DecidableEq, Repr

/-- A heap of allocated node objects plus the shared interface. -/
structure NodeHeap where
  nodes : List NodeObj
  ale : ALE

/-- `ALENode.from_parent` at the object level: read the parent object through
its reference, perform exactly the steps of `from_parent`, and allocate the
child as a fresh object at the end of the store.  No existing object is
written. -/
def from_parent_ref (cls : ALEClass) (h : NodeHeap) (pid : Nat) (action_id : Int) :
    Except PyError Nat × NodeHeap :=
  match h.nodes[pid]? with
  | Option.none => (Except.error PyError.attributeError, h)
  | Option.some p =>
    let ale1 := h.ale.restoreState p.state
    match pyIndex cls.action_set action_id with
    | Except.error e => (Except.error e, { h with ale := ale1 })
    | Except.ok native =>
      let acted := ale1.act (native : Int)
      let ale2 := acted.1
      let ext_reward := acted.2
      match PyValue.subscript cls.action_weights action_id with
      | Except.error e => (Except.error e, { h with ale := ale2 })
      | Except.ok _int_reward =>
        let child : NodeObj :=
          { state := ale2.cloneState
            parent := Option.some pid
            score := p.score + ext_reward
            action_id := action_id
            is_terminal := ale2.game_over
            action_weights := cls.action_weights
            opp_actions := cls.opp_actions }
        (Except.ok h.nodes.length, { nodes := h.nodes ++ [child], ale := ale2 })

/-!
Concrete fixtures: a ROM whose minimal action set is `[0, 1, 3, 4]` (as for
Breakout) and whose reward equals the native action code the emulator
received, which makes visible which action `interface.act` was given.
-/

/-- Example ROM: minimal action set `[0, 1, 3, 4]`; `step s a` moves to
`s + a.toNat + 1` and rewards the received action code `a`; never
game-over. -/
def emuEx : Emulator :=
  { initState := 10
    minimalActionSet := [0, 1, 3, 4]
    step := fun s a => (s + a.toNat + 1, a)
    gameOver := fun _ => false
    screen := fun s => s }

/-- Class attributes after `setup_interface` on the example ROM with
`action_weights = [5, 7, 9, 11]`. -/
def clsEx : ALEClass :=
  ALENode.setup_interface emuEx [] 5 (PyValue.list [5, 7, 9, 11]) (PyValue.list []) PyValue.none

/-- The configured interface of the example run. -/
def aleEx : ALE := clsEx.interface

/-- The root node of the example run. -/
def rootEx : ALENode := ALENode.root clsEx aleEx

/-- Depth-1 node: the child `from_parent(rootEx, 1)` produces
(state `10 + 1 + 1 = 12`, reward `1`). -/
def child1Ex : ALENode :=
  ALENode.mk 12 (Option.some rootEx) 1 1 false (PyValue.list [5, 7, 9, 11]) (PyValue.list [])

/-- The interface state after expanding `child1Ex`. -/
def ale1Ex : ALE := (ALENode.from_parent clsEx aleEx rootEx 1).2

/-- Depth-2 node: the child `from_parent(child1Ex, 3)` produces
(state `12 + 3 + 1 = 16`, reward `3`). -/
def child2Ex : ALENode :=
  ALENode.mk 16 (Option.some child1Ex) 4 3 false (PyValue.list [5, 7, 9, 11]) (PyValue.list [])

/-- Example `args` record for `mcts_run`, with `action_weights = []` and the
driver's integer `random_seed`. -/
def argsEx : Args :=
  { frame_skip := 5
    random_seed := 20230921
    action_weights := PyValue.list []
    opp_actions := PyValue.list [] }

/-- The class attributes that `mcts_run` actually installs on the example
ROM (with the positional-argument swap of line 148). -/
def clsBadEx : ALEClass := mcts_run_setup emuEx [] argsEx

/-!
Helper lemmas characterizing `from_parent`.
-/

theorem sync_rap (self : ALENode) (ale : ALE) :
    (self.sync ale).repeat_action_probability = ale.repeat_action_probability := rfl

theorem act_rap_zero (a : ALE) (x : Int) (h : a.repeat_action_probability = 0) :
    a.act x = ({ a with cur := (a.emu.step a.cur x).1, lastAction := x, rng := a.rng.tail },
      (a.emu.step a.cur x).2) := by
  simp [ALE.act, h]

/-- Normal form of a successful `from_parent` under disabled stochasticity. -/
theorem from_parent_eq_of_ok (cls : ALEClass) (ale : ALE) (p : ALENode) (aid : Int)
    (native : Nat) (w : Int)
    (hrap : ale.repeat_action_probability = 0)
    (hpi : pyIndex cls.action_set aid = Except.ok native)
    (hsw : PyValue.subscript cls.action_weights aid = Except.ok w) :
    ALENode.from_parent cls ale p aid =
      (Except.ok (ALENode.mk (ale.emu.step p.state (native : Int)).1 (Option.some p)
          (p._evaluation + (ale.emu.step p.state (native : Int)).2) aid
          (ale.emu.gameOver (ale.emu.step p.state (native : Int)).1)
          cls.action_weights cls.opp_actions),
        { ale with
            cur := (ale.emu.step p.state (native : Int)).1
            lastAction := (native : Int)
            rng := ale.rng.tail }) := by
  unfold ALENode.from_parent
  rw [hpi, hsw]
  simp [ALENode.sync, ALE.restoreState, ALE.act, ALE.cloneState, ALE.game_over, hrap]

/-- When the action-table subscript fails, `from_parent` propagates the error
after having restored the interface (no action was applied). -/
theorem from_parent_eq_of_indexErr (cls : ALEClass) (ale : ALE) (p : ALENode) (aid : Int)
    (e : PyError) (hpi : pyIndex cls.action_set aid = Except.error e) :
    ALENode.from_parent cls ale p aid = (Except.error e, p.sync ale) := by
  unfold ALENode.from_parent
  rw [hpi]

/-- When the `action_weights` subscript fails, `from_parent` propagates the
error after the interface has been restored and advanced. -/
theorem from_parent_eq_of_weightsErr (cls : ALEClass) (ale : ALE) (p : ALENode) (aid : Int)
    (native : Nat) (e : PyError)
    (hpi : pyIndex cls.action_set aid = Except.ok native)
    (hsw : PyValue.subscript cls.action_weights aid = Except.error e) :
    ALENode.from_parent cls ale p aid =
      (Except.error e, ((p.sync ale).act (native : Int)).1) := by
  unfold ALENode.from_parent
  rw [hpi, hsw]

theorem from_parent_snd_emu (cls : ALEClass) (ale : ALE) (p : ALENode) (aid : Int) :
    ((ALENode.from_parent cls ale p aid).2).emu = ale.emu := by
  unfold ALENode.from_parent
  cases hpi : pyIndex cls.action_set aid with
  | error e => simp [ALENode.sync, ALE.restoreState]
  | ok native =>
    cases hsw : PyValue.subscript cls.action_weights aid with
    | error e => simp [ALENode.sync, ALE.restoreState, ALE.act]
    | ok w => simp [ALENode.sync, ALE.restoreState, ALE.act]

theorem from_parent_snd_rap (cls : ALEClass) (ale : ALE) (p : ALENode) (aid : Int) :
    ((ALENode.from_parent cls ale p aid).2).repeat_action_probability
      = ale.repeat_action_probability := by
  unfold ALENode.from_parent
  cases hpi : pyIndex cls.action_set aid with
  | error e => simp [ALENode.sync, ALE.restoreState]
  | ok native =>
    cases hsw : PyValue.subscript cls.action_weights aid with
    | error e => simp [ALENode.sync, ALE.restoreState, ALE.act]
    | ok w => simp [ALENode.sync, ALE.restoreState, ALE.act]

/-- The result node of `from_parent` depends on the interface only through the
loaded ROM dynamics, as long as stochasticity is disabled: any two interface
states with the same `emu` and `repeat_action_probability = 0` give the same
first component. -/
theorem from_parent_fst_congr (cls : ALEClass) (ale1 ale2 : ALE) (p : ALENode) (aid : Int)
    (hemu : ale1.emu = ale2.emu)
    (h1 : ale1.repeat_action_probability = 0)
    (h2 : ale2.repeat_action_probability = 0) :
    (ALENode.from_parent cls ale1 p aid).1 = (ALENode.from_parent cls ale2 p aid).1 := by
  cases hpi : pyIndex cls.action_set aid with
  | error e =>
    rw [from_parent_eq_of_indexErr cls ale1 p aid e hpi,
      from_parent_eq_of_indexErr cls ale2 p aid e hpi]
  | ok native =>
    cases hsw : PyValue.subscript cls.action_weights aid with
    | error e =>
      rw [from_parent_eq_of_weightsErr cls ale1 p aid native e hpi hsw,
        from_parent_eq_of_weightsErr cls ale2 p aid native e hpi hsw]
    | ok w =>
      rw [from_parent_eq_of_ok cls ale1 p aid native w h1 hpi hsw,
        from_parent_eq_of_ok cls ale2 p aid native w h2 hpi hsw]
      simp [hemu]

theorem videoLoop_length (l : List (ALENode × ALENode)) (ale : ALE) :
    (videoLoop ale l).1.length = l.length := by
  induction l generalizing ale with
  | nil => rfl
  | cons hd tl ih =>
    obtain ⟨n, next⟩ := hd
    simp [videoLoop, ih]

theorem pyIndex_out_of_range {α : Type} (xs : List α) (i : Int)
    (hout : (xs.length : Int) ≤ i ∨ i + (xs.length : Int) < 0) :
    pyIndex xs i = Except.error PyError.indexError := by
  simp only [pyIndex]
  by_cases hi : i < 0
  · simp only [if_pos hi]
    rw [dif_neg]
    omega
  · simp only [if_neg hi]
    rw [dif_neg]
    omega

theorem pyIndex_neg_in_range {α : Type} (xs : List α) (i : Int)
    (hneg : i < 0) (hge : 0 ≤ i + (xs.length : Int)) :
    ∃ a, pyIndex xs i = Except.ok a := by
  simp only [pyIndex]
  simp only [if_pos hneg]
  rw [dif_pos (by omega : 0 ≤ i + (xs.length : Int) ∧ i + (xs.length : Int) < (xs.length : Int))]
  exact ⟨_, rfl⟩

/-- Inversion of a successful `from_parent`, with no assumption on the
stochasticity knob: the immediate reward added to the parent's score is
exactly the second component of the `act` call made from the restored parent
snapshot. -/
theorem from_parent_ok_inv (cls : ALEClass) (ale ale2 : ALE) (p c : ALENode) (aid : Int)
    (heq : ALENode.from_parent cls ale p aid = (Except.ok c, ale2)) :
    ∃ (native : Nat) (w : Int),
      pyIndex cls.action_set aid = Except.ok native ∧
      PyValue.subscript cls.action_weights aid = Except.ok w ∧
      c = ALENode.mk ((p.sync ale).act (native : Int)).1.cloneState (Option.some p)
          (p._evaluation + ((p.sync ale).act (native : Int)).2) aid
          ((p.sync ale).act (native : Int)).1.game_over
          cls.action_weights cls.opp_actions := by
  unfold ALENode.from_parent at heq
  cases hpi : pyIndex cls.action_set aid with
  | error e => rw [hpi] at heq; simp at heq
  | ok native =>
    rw [hpi] at heq
    cases hsw : PyValue.subscript cls.action_weights aid with
    | error e => rw [hsw] at heq; simp at heq
    | ok w =>
      rw [hsw] at heq
      simp only [Prod.mk.injEq, Except.ok.injEq] at heq
      exact ⟨native, w, rfl, rfl, heq.1.symm⟩

/-!
Claim theorems.
-/

/-- C1: evaluation of the code at the failing input.  On a ROM whose minimal
action set is `[0, 1, 3, 4]`, expanding with `action_id = 3` makes the
emulator receive native action code `3` — the raw index — because line 36
builds `action_set = [0, 1, 2, 3]` and `ale_action_set` is only ever used for
its length.  The example ROM rewards the action code it received, so the
child's cumulative score reveals it: the reward is `3`, not
`ale_action_set[3] = 4` as the claim requires. -/
theorem C1_raw_index_reaches_emulator :
    clsEx.ale_action_set = [0, 1, 3, 4] ∧
    clsEx.action_set = [0, 1, 2, 3] ∧
    (ALENode.from_parent clsEx aleEx rootEx 3).1 =
      Except.ok (ALENode.mk 14 (Option.some rootEx) 3 3 false
        (PyValue.list [5, 7, 9, 11]) (PyValue.list [])) :=
  ⟨rfl, rfl, rfl⟩

/-- C2: the root's cumulative score is 0; every `from_parent` child's score is
its parent's score plus the immediate reward the emulator returned for the
transition; and for every node the program can build, `evaluation()` equals
the independently recomputed sum of immediate rewards along the root-to-node
path. -/
theorem C2_score_accumulation :
    (∀ (cls : ALEClass) (ale : ALE), (ALENode.root cls ale).evaluation = 0) ∧
    (∀ (cls : ALEClass) (ale ale2 : ALE) (p c : ALENode) (aid : Int),
      ALENode.from_parent cls ale p aid = (Except.ok c, ale2) →
      ∃ native : Nat, pyIndex cls.action_set aid = Except.ok native ∧
        c._evaluation = p._evaluation + ((p.sync ale).act (native : Int)).2) ∧
    (∀ (cls : ALEClass) (emu : Emulator) (n : ALENode),
      ReachableNode cls emu n → n.evaluation = pathScore cls emu n) := by
  refine ⟨fun cls ale => rfl, ?_, ?_⟩
  · intro cls ale ale2 p c aid heq
    obtain ⟨native, w, hpi, hsw, hc⟩ := from_parent_ok_inv cls ale ale2 p c aid heq
    exact ⟨native, hpi, by subst hc; rfl⟩
  · intro cls emu n h
    induction h with
    | root ale hemu => rfl
    | child p ale ale2 aid c hp hemu hrap heq ih =>
      cases hpi : pyIndex cls.action_set aid with
      | error e =>
        rw [from_parent_eq_of_indexErr cls ale p aid e hpi] at heq
        simp at heq
      | ok native =>
        cases hsw : PyValue.subscript cls.action_weights aid with
        | error e =>
          rw [from_parent_eq_of_weightsErr cls ale p aid native e hpi hsw] at heq
          simp at heq
        | ok w =>
          rw [from_parent_eq_of_ok cls ale p aid native w hrap hpi hsw] at heq
          have hc : c = ALENode.mk (ale.emu.step p.state (native : Int)).1 (Option.some p)
              (p._evaluation + (ale.emu.step p.state (native : Int)).2) aid
              (ale.emu.gameOver (ale.emu.step p.state (native : Int)).1)
              cls.action_weights cls.opp_actions := by
            have h1 := congrArg Prod.fst heq
            simpa using h1.symm
          subst hc
          have ih' : p._evaluation = pathScore cls emu p := ih
          show p._evaluation + (ale.emu.step p.state (native : Int)).2
              = pathScore cls emu (ALENode.mk (ale.emu.step p.state (native : Int)).1
                (Option.some p) (p._evaluation + (ale.emu.step p.state (native : Int)).2) aid
                (ale.emu.gameOver (ale.emu.step p.state (native : Int)).1)
                cls.action_weights cls.opp_actions)
          rw [hemu]
          simp only [pathScore, hpi, Except.toOption, Option.getD]
          rw [ih']

/-- C2 witness: the depth-1 node of the example run is reachable and its
stored evaluation matches the recomputed path score. -/
theorem C2_score_accumulation_witness :
    ReachableNode clsEx emuEx child1Ex ∧
    child1Ex.evaluation = pathScore clsEx emuEx child1Ex := by
  have hr : ReachableNode clsEx emuEx child1Ex :=
    ReachableNode.child rootEx aleEx ale1Ex 1 child1Ex
      (ReachableNode.root aleEx rfl) rfl rfl rfl
  exact ⟨hr, C2_score_accumulation.2.2 clsEx emuEx child1Ex hr⟩

/-- C3: with stochasticity disabled, expanding action `b` from a parent after
an intervening sibling expansion of action `a` — or after any other
intervening emulator use that keeps the loaded ROM — yields exactly the same
result node as expanding `b` directly from the parent: each expansion is
computed strictly from the parent's stored snapshot.  Since `a` and `b` are
arbitrary, both sibling orders agree. -/
theorem C3_restore_before_advance (cls : ALEClass) (ale : ALE) (p : ALENode) (a b : Int)
    (hrap : ale.repeat_action_probability = 0) :
    ((ALENode.from_parent cls (ALENode.from_parent cls ale p a).2 p b).1
        = (ALENode.from_parent cls ale p b).1) ∧
    (∀ ale2 : ALE, ale2.emu = ale.emu → ale2.repeat_action_probability = 0 →
      (ALENode.from_parent cls ale2 p b).1 = (ALENode.from_parent cls ale p b).1) := by
  constructor
  · apply from_parent_fst_congr
    · exact from_parent_snd_emu cls ale p a
    · rw [from_parent_snd_rap]
      exact hrap
    · exact hrap
  · intro ale2 hemu hrap2
    exact from_parent_fst_congr cls ale2 ale p b hemu hrap2 hrap

/-- C3 witness at the example run: expanding action 1 from the root after a
sibling expansion of action 2 equals expanding action 1 directly, and
likewise from the intervening interface state `ale1Ex`. -/
theorem C3_restore_before_advance_witness :
    aleEx.repeat_action_probability = 0 ∧
    ((ALENode.from_parent clsEx (ALENode.from_parent clsEx aleEx rootEx 2).2 rootEx 1).1
        = (ALENode.from_parent clsEx aleEx rootEx 1).1) ∧
    (ALENode.from_parent clsEx ale1Ex rootEx 1).1 = (ALENode.from_parent clsEx aleEx rootEx 1).1 := by
  have h := C3_restore_before_advance clsEx aleEx rootEx 2 1 rfl
  exact ⟨rfl, h.1, h.2 ale1Ex rfl rfl⟩

/-- C4: `setup_interface` sets `repeat_action_probability` to 0, and with the
knob at 0 two successive independent `from_parent` calls with the same parent
node and the same `action_id` return identical result nodes: bit-identical
snapshot, identical cumulative score (hence identical immediate reward, the
parent being shared), and identical terminal flag. -/
theorem C4_expand_deterministic (rom : Emulator) (rng : List Nat) (fs : Nat)
    (aw ow sd : PyValue) (cls : ALEClass) (ale : ALE) (p : ALENode) (aid : Int)
    (hrap : ale.repeat_action_probability = 0) :
    (ALENode.setup_interface rom rng fs aw ow sd).interface.repeat_action_probability = 0 ∧
    (ALENode.from_parent cls (ALENode.from_parent cls ale p aid).2 p aid).1
      = (ALENode.from_parent cls ale p aid).1 := by
  refine ⟨rfl, ?_⟩
  apply from_parent_fst_congr
  · exact from_parent_snd_emu cls ale p aid
  · rw [from_parent_snd_rap]
    exact hrap
  · exact hrap

/-- C4 witness: two successive expansions of action 1 from the example root
agree. -/
theorem C4_expand_deterministic_witness :
    aleEx.repeat_action_probability = 0 ∧
    (ALENode.from_parent clsEx (ALENode.from_parent clsEx aleEx rootEx 1).2 rootEx 1).1
      = (ALENode.from_parent clsEx aleEx rootEx 1).1 :=
  ⟨rfl, (C4_expand_deterministic emuEx [] 5 (PyValue.list [5, 7, 9, 11]) (PyValue.list [])
    PyValue.none clsEx aleEx rootEx 1 rfl).2⟩

/-- C5 counterexample: `child2Ex` is reached by 2 ancestor transitions from
the root, but `make_video` captures only 1 frame, not 2 as the claim
states. -/
theorem C5_frame_count_counterexample :
    (child2Ex.make_video_frames aleEx).1.length = 1 ∧
    child2Ex.get_history.length = 2 :=
  ⟨rfl, rfl⟩

/-- C5 amended: iterating over `enumerate(history[:-1])` pairs consecutive
elements of the history, and the history excludes the root, so for a final
node at depth `d` the loop captures `d - 1` frames (`0` when `d ≤ 1`): the
root-to-first-child transition is never rendered. -/
theorem C5_frame_count_amended (self : ALENode) (ale : ALE) :
    (self.make_video_frames ale).1.length = self.get_history.length - 1 := by
  unfold ALENode.make_video_frames
  rw [videoLoop_length]
  simp

/-- C6: node equality holds iff the stored emulator snapshots are identical;
in particular nodes agreeing on `cumulative_score` or `action_id` but with
different snapshots are unequal, and nodes reached by distinct paths holding
the same snapshot are equal. -/
theorem C6_eq_iff_state (a b : ALENode) :
    ALENode.eq a b = true ↔ a.state = b.state := by
  simp [ALENode.eq]

/-- C7 counterexample: `action_id = -1` lies outside the index range of the
4-entry action table, yet `from_parent` does not fail: Python negative
indexing resolves it to the last entry and a child is produced. -/
theorem C7_negative_index_counterexample :
    (ALENode.from_parent clsEx aleEx rootEx (-1)).1 =
      Except.ok (ALENode.mk 14 (Option.some rootEx) 3 (-1) false
        (PyValue.list [5, 7, 9, 11]) (PyValue.list [])) :=
  rfl

/-- C7 amended: expanding with `action_id ≥ n` or `action_id < -n` (where `n`
is the size of the action table) raises `IndexError` and produces no child;
but a negative `action_id` in `[-n, -1]` is accepted by Python negative
indexing and — when the weights subscript also succeeds — does produce a
child carrying that negative `action_id`. -/
theorem C7_invalid_action_amended (cls : ALEClass) (ale : ALE) (p : ALENode) (aid : Int) :
    ((cls.action_set.length : Int) ≤ aid ∨ aid + (cls.action_set.length : Int) < 0 →
      (ALENode.from_parent cls ale p aid).1 = Except.error PyError.indexError) ∧
    (aid < 0 → 0 ≤ aid + (cls.action_set.length : Int) →
      ∀ w : Int, PyValue.subscript cls.action_weights aid = Except.ok w →
      ∃ c : ALENode, (ALENode.from_parent cls ale p aid).1 = Except.ok c ∧
        c.action_id = aid) := by
  constructor
  · intro hout
    rw [from_parent_eq_of_indexErr cls ale p aid PyError.indexError
      (pyIndex_out_of_range cls.action_set aid hout)]
  · intro hneg hge w hsw
    obtain ⟨native, hpi⟩ := pyIndex_neg_in_range cls.action_set aid hneg hge
    unfold ALENode.from_parent
    rw [hpi, hsw]
    exact ⟨_, rfl, rfl⟩

/-- C7 witness: on the example run (table size 4), `action_id = 7` raises
`IndexError`, while `action_id = -1` produces a child. -/
theorem C7_invalid_action_witness :
    ((clsEx.action_set.length : Int) ≤ 7 ∨ (7 : Int) + (clsEx.action_set.length : Int) < 0) ∧
    (ALENode.from_parent clsEx aleEx rootEx 7).1 = Except.error PyError.indexError ∧
    ((-1 : Int) < 0 ∧ (0 : Int) ≤ -1 + (clsEx.action_set.length : Int) ∧
      PyValue.subscript clsEx.action_weights (-1) = Except.ok 11 ∧
      ∃ c : ALENode, (ALENode.from_parent clsEx aleEx rootEx (-1)).1 = Except.ok c ∧
        c.action_id = -1) := by
  have h1 := (C7_invalid_action_amended clsEx aleEx rootEx 7).1 (Or.inl (by decide))
  have hsub : PyValue.subscript clsEx.action_weights (-1) = Except.ok 11 := rfl
  have h2 := (C7_invalid_action_amended clsEx aleEx rootEx (-1)).2 (by decide) (by decide)
    11 hsub
  exact ⟨Or.inl (by decide), h1, by decide, by decide, hsub, h2⟩

/-- C8: `from_parent` never writes to any already-allocated node object: in
the object-store view, every node present before the call — the parent with
all of its fields included — is unchanged whatever the outcome, and the child
(when one is produced) is a fresh object appended to the store.  Nodes are
only written at construction. -/
theorem C8_from_parent_frame (cls : ALEClass) (h : NodeHeap) (pid : Nat) (aid : Int)
    (j : Nat) (hj : j < h.nodes.length) :
    ((from_parent_ref cls h pid aid).2).nodes[j]? = h.nodes[j]? := by
  unfold from_parent_ref
  cases hp : h.nodes[pid]? with
  | none => rfl
  | some p =>
    cases hpi : pyIndex cls.action_set aid with
    | error e => rfl
    | ok native =>
      cases hsw : PyValue.subscript cls.action_weights aid with
      | error e => rfl
      | ok w =>
        simp only []
        exact List.getElem?_append_left hj

/-- The object store of the C8 witness: one root object plus the example
interface. -/
def heapEx : NodeHeap :=
  { nodes := [{ state := 10
                parent := Option.none
                score := 0
                action_id := 0
                is_terminal := false
                action_weights := PyValue.list [5, 7, 9, 11]
                opp_actions := PyValue.list [] }]
    ale := aleEx }

/-- C8 witness: expanding the root object of `heapEx` leaves it unchanged in
the store. -/
theorem C8_from_parent_frame_witness :
    0 < heapEx.nodes.length ∧
    ((from_parent_ref clsEx heapEx 0 1).2).nodes[0]? = heapEx.nodes[0]? :=
  ⟨by decide, C8_from_parent_frame clsEx heapEx 0 1 0 (by decide)⟩

/-- C9: `"ram"` is not among the `__slots__` of `ALENode` and is never
assigned, so `__hash__`, which reads `self.ram`, raises `AttributeError` on
every node: any hash-based use of a node fails. -/
theorem C9_hash_attribute_error :
    ALENode.slots.contains "ram" = false ∧
    ∀ self : ALENode, ALENode.hashImpl self = Except.error PyError.attributeError :=
  ⟨rfl, fun _ => rfl⟩

/-- C10: the positional call in `mcts_run` binds the integer `random_seed` to
the class `action_weights`; and whenever `action_weights[action_id]` raises
for an action whose table lookup succeeded, `from_parent` raises — producing
no node — with the interface left restored to the parent's snapshot and
advanced by the action (its state has changed although no child exists). -/
theorem C10_unused_weights_lookup (rom : Emulator) (rng : List Nat) (args : Args) :
    (mcts_run_setup rom rng args).action_weights = PyValue.int args.random_seed ∧
    ∀ (cls : ALEClass) (ale : ALE) (p : ALENode) (aid : Int) (native : Nat) (e : PyError),
      pyIndex cls.action_set aid = Except.ok native →
      PyValue.subscript cls.action_weights aid = Except.error e →
      (ALENode.from_parent cls ale p aid).1 = Except.error e ∧
      (ALENode.from_parent cls ale p aid).2 = ((p.sync ale).act (native : Int)).1 := by
  refine ⟨rfl, fun cls ale p aid native e hpi hsw => ?_⟩
  rw [from_parent_eq_of_weightsErr cls ale p aid native e hpi hsw]
  exact ⟨rfl, rfl⟩

/-- C10 witness: with the class attributes `mcts_run` actually installs
(`action_weights = 20230921`), expanding the legal action 0 raises
`TypeError` and leaves the interface advanced past the parent snapshot. -/
theorem C10_unused_weights_lookup_witness :
    clsBadEx.action_weights = PyValue.int 20230921 ∧
    pyIndex clsBadEx.action_set 0 = Except.ok 0 ∧
    PyValue.subscript clsBadEx.action_weights 0 = Except.error PyError.typeError ∧
    (ALENode.from_parent clsBadEx aleEx rootEx 0).1 = Except.error PyError.typeError ∧
    (ALENode.from_parent clsBadEx aleEx rootEx 0).2 = ((rootEx.sync aleEx).act (0 : Int)).1 := by
  have h := (C10_unused_weights_lookup emuEx [] argsEx).2 clsBadEx aleEx rootEx 0 0
    PyError.typeError rfl rfl
  exact ⟨(C10_unused_weights_lookup emuEx [] argsEx).1, rfl, rfl, h.1, h.2⟩
